import Mathlib

/-!
Verification development for the `dstar-image-prep` image preparation
pipeline (`src/dstar_image_prep.py`).  The Python functions are embedded
shallowly:

* `parse_size` works on the character data of its input string;
* `resize_to_fit` is modelled on an image record carrying dimensions, an
  EXIF-orientation flag and a colour-mode flag, and additionally returns
  the ordered trace of pixel operations it performed, so that statements
  about operation ordering (what happens before an error is raised) are
  expressible;
* `add_watermark` is modelled with explicit object identities so that
  copy-versus-mutate behaviour is expressible; text measurement is an
  abstract parameter (it depends on host fonts);
* `save_jpeg_under_limit` is modelled with an abstract deterministic
  encoding-size function `sizeAt : Int → Nat` (the byte size the JPEG
  encoder produces for the fixed image at a given quality) and an explicit
  model of the file at the destination path.

Python `int` arithmetic is `Int`, Python `//` is `Int.fdiv`, Python float
ratios are modelled as exact rationals, and Python `round` (banker's
rounding, half to even) is `pyround`.
-/

/-- Python `round` on an exact rational: round half to even. -/
def pyround (x : ℚ) : Int :=
  let n : Int := ⌊x⌋
  let r := x - n
  if r < 1 / 2 then n
  else if 1 / 2 < r then n + 1
  else if n % 2 = 0 then n else n + 1

/-- Split a character list on every occurrence of `c` (Python
`str.split` with an explicit separator: non-collapsing, always returns
at least one piece). -/
def splitOnChar (c : Char) : List Char → List (List Char)
  | [] => [[]]
  | x :: xs =>
    match splitOnChar c xs with
    | [] => [[x]]
    | h :: t => if x = c then [] :: h :: t else (x :: h) :: t

/-- Digits of a decimal numeral, or `none` when the list is empty or has
a non-digit character. -/
def decDigits : List Char → Option Nat
  | [] => none
  | cs =>
    if cs.all Char.isDigit then
      some (cs.foldl (fun a c => a * 10 + (c.toNat - ('0').toNat)) 0)
    else none

/-- Python `int(s)`: optional surrounding whitespace, optional sign,
then decimal digits.  (Underscore digit separators are not modelled.) -/
def pyint (s : String) : Option Int :=
  let t := (s.data.dropWhile Char.isWhitespace).reverse.dropWhile Char.isWhitespace
  match t.reverse with
  | [] => none
  | c :: cs =>
    if c = '-' then (decDigits cs).map (fun n => -(n : Int))
    else if c = '+' then (decDigits cs).map (fun n => (n : Int))
    else (decDigits (c :: cs)).map (fun n => (n : Int))

/-- Embedding of `parse_size` (src/dstar_image_prep.py:11).  Lower-cases
the string, splits on the character `x`, and converts both pieces with
Python `int`; any failure (wrong number of pieces, non-numeric piece) is
the `argparse.ArgumentTypeError` branch.  Note the source performs no
positivity check. -/
def parse_size (s : String) : Except String (Int × Int) :=
  match (splitOnChar ('x') (s.data.map Char.toLower)).map List.asString with
  | [w, h] =>
    match pyint w, pyint h with
    | some wi, some hi => Except.ok (wi, hi)
    | _, _ => Except.error ("Invalid size " ++ s ++ ". Use like 640x480.")
  | _ => Except.error ("Invalid size " ++ s ++ ". Use like 640x480.")

/-- In-memory raster: dimensions, whether the EXIF orientation tag calls
for a transpose that has not yet been applied, and whether the pixel
format has been normalised to RGB. -/
structure PILImage where
  width : Int
  height : Int
  exifSwapped : Bool
  rgb : Bool
deriving DecidableEq

/-- Embedding of `PIL.ImageOps.exif_transpose`: bakes the orientation
tag into the pixel order (modelled as a width/height swap when the tag
calls for one) and clears the tag. -/
def exif_transpose (img : PILImage) : PILImage :=
  if img.exifSwapped then
    { width := img.height, height := img.width, exifSwapped := false, rgb := img.rgb }
  else
    { img with exifSwapped := false }

/-- Embedding of `Image.convert("RGB")`. -/
def convertRGB (img : PILImage) : PILImage :=
  { img with rgb := true }

/-- Pixel operations performed by the size fitter, in call order. -/
inductive PixelOp
  | transposeOp
  | convertOp
  | resampleOp (w h : Int)
  | newCanvasOp (w h : Int) (color : Int × Int × Int)
  | pasteOp (x y : Int)
  | cropOp (left top right bottom : Int)
deriving DecidableEq

/-- Embedding of `resize_to_fit` (src/dstar_image_prep.py:85).  Returns
the result (the raised `ValueError` for an unknown mode becomes
`Except.error`) together with the trace of pixel operations performed,
in the order the source performs them: the EXIF transpose and RGB
conversion happen first, before the mode dispatch. -/
def resize_to_fit (img : PILImage) (size : Int × Int) (mode : String) :
    Except String PILImage × List PixelOp :=
  let target_w := size.1
  let target_h := size.2
  let img2 := convertRGB (exif_transpose img)
  let baseOps : List PixelOp := [PixelOp.transposeOp, PixelOp.convertOp]
  if mode = "exact" then
    (Except.ok { img2 with width := target_w, height := target_h },
      baseOps ++ [PixelOp.resampleOp target_w target_h])
  else
    let src_ratio : ℚ := (img2.width : ℚ) / (img2.height : ℚ)
    let tgt_ratio : ℚ := (target_w : ℚ) / (target_h : ℚ)
    if mode = "contain" then
      let wh :=
        if src_ratio > tgt_ratio then (target_w, pyround ((target_w : ℚ) / src_ratio))
        else (pyround ((target_h : ℚ) * src_ratio), target_h)
      (Except.ok { img2 with width := target_w, height := target_h },
        baseOps ++ [PixelOp.resampleOp wh.1 wh.2,
          PixelOp.newCanvasOp target_w target_h (0, 0, 0),
          PixelOp.pasteOp (Int.fdiv (target_w - wh.1) 2) (Int.fdiv (target_h - wh.2) 2)])
    else if mode = "cover" then
      let wh :=
        if src_ratio > tgt_ratio then (pyround ((target_h : ℚ) * src_ratio), target_h)
        else (target_w, pyround ((target_w : ℚ) / src_ratio))
      let left := Int.fdiv (wh.1 - target_w) 2
      let top := Int.fdiv (wh.2 - target_h) 2
      (Except.ok { img2 with width := target_w, height := target_h },
        baseOps ++ [PixelOp.resampleOp wh.1 wh.2,
          PixelOp.cropOp left top (left + target_w) (top + target_h)])
    else
      (Except.error ("Unknown resize mode: " ++ mode), baseOps)

/-- The file present at the destination path: either a pre-existing file
of some byte size that this call never wrote, or the JPEG encode of the
pipeline's image at a given quality. -/
inductive DiskFile
  | pre (size : Nat)
  | enc (q : Int)
deriving DecidableEq

/-- Byte size reported by `stat` for the file at the destination,
given the encoding-size model `sizeAt`. -/
def statSize (sizeAt : Int → Nat) : DiskFile → Nat
  | DiskFile.pre n => n
  | DiskFile.enc q => sizeAt q

/-- The `while q >= quality_min` loop of `save_jpeg_under_limit`
(src/dstar_image_prep.py:141).  Each iteration overwrites the
destination with the encode at the current quality and stops when the
measured size fits the budget; on exhaustion the source stats the
destination again and returns `q + quality_step` with that size — if
nothing exists at the destination the `stat` raises (modelled `none`). -/
def saveLoop (sizeAt : Int → Nat) (maxBytes : Nat) (qmin qstep : Int)
    (hstep : 0 < qstep) (q : Int) (disk : Option DiskFile) :
    Option ((Int × Nat) × DiskFile) :=
  if h : qmin ≤ q then
    if sizeAt q ≤ maxBytes then some ((q, sizeAt q), DiskFile.enc q)
    else saveLoop sizeAt maxBytes qmin qstep hstep (q - qstep) (some (DiskFile.enc q))
  else
    match disk with
    | none => none
    | some f => some ((q + qstep, statSize sizeAt f), f)
termination_by (q + qstep - qmin).toNat
decreasing_by
  simp_wf
  omega

/-- The descending sequence of qualities the loop tries:
`q, q - qstep, …` down to the last value still `≥ qmin`. -/
def qualityScan (qmin qstep : Int) (hstep : 0 < qstep) (q : Int) : List Int :=
  if h : qmin ≤ q then q :: qualityScan qmin qstep hstep (q - qstep) else []
termination_by (q + qstep - qmin).toNat
decreasing_by
  simp_wf
  omega

/-- Embedding of `save_jpeg_under_limit` (src/dstar_image_prep.py:129).
`sizeAt` models the deterministic byte size of encoding the (fixed)
image at each quality; `disk0` is whatever file is at the destination
path before the call. -/
def save_jpeg_under_limit (sizeAt : Int → Nat) (disk0 : Option DiskFile)
    (max_kb : Nat) (quality_start quality_min quality_step : Int)
    (hstep : 0 < quality_step) : Option ((Int × Nat) × DiskFile) :=
  saveLoop sizeAt (max_kb * 1024) quality_min quality_step hstep quality_start disk0

/-- The two text styles of the overlay: the identity lines use the main
font, the caption line the smaller caption font. -/
inductive FontStyle
  | main
  | caption
deriving DecidableEq

/-- One `draw.text` call: position, text, fill colour, font style. -/
structure DrawCmd where
  x : Int
  y : Int
  text : String
  fill : Int × Int × Int
  font : FontStyle
deriving DecidableEq

/-- Image object for the overlay stage: `oid` is the Python object
identity, `drawn` the text already burned into the pixels. -/
structure WImage where
  oid : Nat
  width : Int
  height : Int
  drawn : List DrawCmd
deriving DecidableEq

/-- The draw loop of `add_watermark` (src/dstar_image_prep.py:77): for
each measured line draw a 1-pixel-offset black shadow, then the white
text, then advance `y` by the line height plus the 4-unit gap. -/
def drawCmds (x : Int) : Int → List (String × FontStyle × Int) → List DrawCmd
  | _, [] => []
  | y, (t, f, h) :: rest =>
    { x := x + 1, y := y + 1, text := t, fill := (0, 0, 0), font := f } ::
    { x := x, y := y, text := t, fill := (255, 255, 255), font := f } ::
    drawCmds x (y + h + 4) rest

/-- Embedding of `add_watermark` (src/dstar_image_prep.py:27).
`measure` abstracts `draw.textbbox` (it depends on host fonts) and
returns the rendered (width, height) of a text under a style.  The
second component of the result is the list of object identities the
call mutated: the source draws only on `img.copy()`, modelled as a
fresh object id.  When both texts are empty the source returns the very
input object and draws nothing. -/
def add_watermark (measure : String → FontStyle → Int × Int) (img : WImage)
    (identity_text : String) (caption_text : String) (margin : Int) :
    WImage × List Nat :=
  if identity_text = "" ∧ caption_text = "" then (img, [])
  else
    let copyId := img.oid + 1
    let idLines : List (String × FontStyle) :=
      if identity_text = "" then []
      else (splitOnChar ('|') identity_text.data).map
        (fun cs => (cs.asString, FontStyle.main))
    let capLines : List (String × FontStyle) :=
      if caption_text = "" then [] else [(caption_text, FontStyle.caption)]
    let lines := idLines ++ capLines
    let measured := lines.map (fun tf => (tf.1, tf.2, (measure tf.1 tf.2).2))
    let line_heights := measured.map (fun m => m.2.2)
    let total_height : Int := line_heights.foldl (fun a b => a + b) 0 +
      ((lines.length : Int) - 1) * 4
    let x := margin
    let y0 := img.height - total_height - margin
    let cmds := drawCmds x y0 measured
    ({ img with oid := copyId, drawn := img.drawn ++ cmds }, [copyId])

/-- Stated from the specification's wording for mode `contain`
(spec §4.2): `newW = width`, `newH = round(width / srcRatio)` when
`srcRatio > tgtRatio`, else `newH = height`, `newW = round(height *
srcRatio)`.  Used to compare the spec's formulas with the code path. -/
def specContainSize (srcW srcH width height : Int) : Int × Int :=
  if (srcW : ℚ) / (srcH : ℚ) > (width : ℚ) / (height : ℚ) then
    (width, pyround ((width : ℚ) / ((srcW : ℚ) / (srcH : ℚ))))
  else
    (pyround ((height : ℚ) * ((srcW : ℚ) / (srcH : ℚ))), height)

/-- Stated from the specification's wording for the `contain` paste
offset: `((width-newW)/2, (height-newH)/2)` with floor division. -/
def specContainOffset (width height : Int) (wh : Int × Int) : Int × Int :=
  (Int.fdiv (width - wh.1) 2, Int.fdiv (height - wh.2) 2)

/-- Unfolding: a trial at `q ≥ qmin` that fits the budget returns
immediately with the encode it just wrote. -/
theorem saveLoop_fit (sizeAt : Int → Nat) (maxB : Nat) (qmin qstep : Int)
    (hstep : 0 < qstep) (q : Int) (disk : Option DiskFile)
    (h : qmin ≤ q) (hs : sizeAt q ≤ maxB) :
    saveLoop sizeAt maxB qmin qstep hstep q disk =
      some ((q, sizeAt q), DiskFile.enc q) := by
  rw [saveLoop.eq_def]
  rw [dif_pos h, if_pos hs]

/-- Unfolding: a trial at `q ≥ qmin` that misses the budget recurses at
`q - qstep`, the destination now holding the encode at `q`. -/
theorem saveLoop_step (sizeAt : Int → Nat) (maxB : Nat) (qmin qstep : Int)
    (hstep : 0 < qstep) (q : Int) (disk : Option DiskFile)
    (h : qmin ≤ q) (hs : ¬ sizeAt q ≤ maxB) :
    saveLoop sizeAt maxB qmin qstep hstep q disk =
      saveLoop sizeAt maxB qmin qstep hstep (q - qstep) (some (DiskFile.enc q)) := by
  rw [saveLoop.eq_def]
  rw [dif_pos h, if_neg hs]

/-- Unfolding: once `q < qmin` the loop exits and the source stats the
destination, returning `q + qstep` with that size (or raising when the
destination does not exist). -/
theorem saveLoop_low (sizeAt : Int → Nat) (maxB : Nat) (qmin qstep : Int)
    (hstep : 0 < qstep) (q : Int) (disk : Option DiskFile)
    (h : ¬ qmin ≤ q) :
    saveLoop sizeAt maxB qmin qstep hstep q disk =
      (match disk with
       | none => none
       | some f => some ((q + qstep, statSize sizeAt f), f)) := by
  rw [saveLoop.eq_def]
  rw [dif_neg h]

/-- Unfolding of the quality scan at a value still in range. -/
theorem qualityScan_cons (qmin qstep : Int) (hstep : 0 < qstep) (q : Int)
    (h : qmin ≤ q) :
    qualityScan qmin qstep hstep q = q :: qualityScan qmin qstep hstep (q - qstep) := by
  rw [qualityScan.eq_def]
  rw [dif_pos h]

/-- Unfolding of the quality scan below the floor. -/
theorem qualityScan_nil (qmin qstep : Int) (hstep : 0 < qstep) (q : Int)
    (h : ¬ qmin ≤ q) :
    qualityScan qmin qstep hstep q = [] := by
  rw [qualityScan.eq_def]
  rw [dif_neg h]

/-- Fueled bounds: every member of the scan lies between the floor and
the starting quality. -/
theorem qualityScan_bounds (qmin qstep : Int) (hstep : 0 < qstep) :
    ∀ (n : Nat) (q : Int), (q + qstep - qmin).toNat ≤ n →
    ∀ x ∈ qualityScan qmin qstep hstep q, qmin ≤ x ∧ x ≤ q := by
  intro n
  induction n with
  | zero =>
    intro q hq x hx
    rw [qualityScan_nil qmin qstep hstep q (by omega)] at hx
    exact absurd hx (List.not_mem_nil x)
  | succ n ih =>
    intro q hq x hx
    by_cases hge : qmin ≤ q
    · rw [qualityScan_cons qmin qstep hstep q hge] at hx
      rcases List.mem_cons.mp hx with rfl | htail
      · exact ⟨hge, le_refl x⟩
      · have h2 := ih (q - qstep) (by omega) x htail
        exact ⟨h2.1, by omega⟩
    · rw [qualityScan_nil qmin qstep hstep q hge] at hx
      exact absurd hx (List.not_mem_nil x)

/-- Every member of the scan lies between the floor and the start. -/
theorem qualityScan_mem_le (qmin qstep : Int) (hstep : 0 < qstep) (q x : Int)
    (hx : x ∈ qualityScan qmin qstep hstep q) : qmin ≤ x ∧ x ≤ q :=
  qualityScan_bounds qmin qstep hstep (q + qstep - qmin).toNat q (le_refl _) x hx

/-- Fueled: when `qF` is a scanned quality that fits the budget and
every strictly higher scanned quality misses it, the loop stops at `qF`
and returns its encode. -/
theorem saveLoop_first_fit (sizeAt : Int → Nat) (maxB : Nat) (qmin qstep : Int)
    (hstep : 0 < qstep) :
    ∀ (n : Nat) (q : Int), (q + qstep - qmin).toNat ≤ n →
    ∀ qF, qF ∈ qualityScan qmin qstep hstep q →
      sizeAt qF ≤ maxB →
      (∀ q' ∈ qualityScan qmin qstep hstep q, qF < q' → ¬ sizeAt q' ≤ maxB) →
      ∀ disk, saveLoop sizeAt maxB qmin qstep hstep q disk =
        some ((qF, sizeAt qF), DiskFile.enc qF) := by
  intro n
  induction n with
  | zero =>
    intro q hq qF hmem _ _ _
    rw [qualityScan_nil qmin qstep hstep q (by omega)] at hmem
    exact absurd hmem (List.not_mem_nil qF)
  | succ n ih =>
    intro q hq qF hmem hfit hhigh disk
    by_cases hge : qmin ≤ q
    · rw [qualityScan_cons qmin qstep hstep q hge] at hmem hhigh
      by_cases hs : sizeAt q ≤ maxB
      · rcases List.mem_cons.mp hmem with rfl | htail
        · exact saveLoop_fit sizeAt maxB qmin qstep hstep qF disk hge hs
        · have hlt : qF < q := by
            have h2 := qualityScan_mem_le qmin qstep hstep (q - qstep) qF htail
            omega
          exact absurd hs (hhigh q (List.mem_cons_self q _) hlt)
      · rcases List.mem_cons.mp hmem with rfl | htail
        · exact absurd hfit hs
        · rw [saveLoop_step sizeAt maxB qmin qstep hstep q disk hge hs]
          exact ih (q - qstep) (by omega) qF htail hfit
            (fun q' hq' => hhigh q' (List.mem_cons_of_mem q hq')) _
    · rw [qualityScan_nil qmin qstep hstep q hge] at hmem
      exact absurd hmem (List.not_mem_nil qF)

/-- Fueled: when no scanned quality fits the budget, the loop exhausts
and returns the last scanned quality `qL` (the one whose next decrement
falls below the floor) with the size of its persisted encode. -/
theorem saveLoop_exhaust (sizeAt : Int → Nat) (maxB : Nat) (qmin qstep : Int)
    (hstep : 0 < qstep) :
    ∀ (n : Nat) (q : Int), (q + qstep - qmin).toNat ≤ n →
    ∀ qL, qL ∈ qualityScan qmin qstep hstep q →
      qL - qstep < qmin →
      (∀ q' ∈ qualityScan qmin qstep hstep q, ¬ sizeAt q' ≤ maxB) →
      ∀ disk, saveLoop sizeAt maxB qmin qstep hstep q disk =
        some ((qL, sizeAt qL), DiskFile.enc qL) := by
  intro n
  induction n with
  | zero =>
    intro q hq qL hmem _ _ _
    rw [qualityScan_nil qmin qstep hstep q (by omega)] at hmem
    exact absurd hmem (List.not_mem_nil qL)
  | succ n ih =>
    intro q hq qL hmem hlow hnofit disk
    by_cases hge : qmin ≤ q
    · rw [qualityScan_cons qmin qstep hstep q hge] at hmem hnofit
      have hsq : ¬ sizeAt q ≤ maxB := hnofit q (List.mem_cons_self q _)
      rw [saveLoop_step sizeAt maxB qmin qstep hstep q disk hge hsq]
      by_cases hge2 : qmin ≤ q - qstep
      · rcases List.mem_cons.mp hmem with rfl | htail
        · exact absurd hge2 (by omega)
        · exact ih (q - qstep) (by omega) qL htail hlow
            (fun q' hq' => hnofit q' (List.mem_cons_of_mem q hq')) _
      · rcases List.mem_cons.mp hmem with rfl | htail
        · rw [saveLoop_low sizeAt maxB qmin qstep hstep (qL - qstep) _ hge2]
          simp [statSize]
        · rw [qualityScan_nil qmin qstep hstep (q - qstep) hge2] at htail
          exact absurd htail (List.not_mem_nil qL)
    · rw [qualityScan_nil qmin qstep hstep q hge] at hmem
      exact absurd hmem (List.not_mem_nil qL)

/-- Fueled invariant: whenever the loop starts in range (or the
destination already holds the encode of the quality the exit path would
report), a returned result always describes exactly the encode left on
disk: the file is the encode at the returned quality and the size is
its measured size. -/
theorem saveLoop_inv (sizeAt : Int → Nat) (maxB : Nat) (qmin qstep : Int)
    (hstep : 0 < qstep) :
    ∀ (n : Nat) (q : Int), (q + qstep - qmin).toNat ≤ n →
    ∀ disk, (qmin ≤ q ∨ disk = some (DiskFile.enc (q + qstep))) →
    ∀ qq b f, saveLoop sizeAt maxB qmin qstep hstep q disk = some ((qq, b), f) →
      f = DiskFile.enc qq ∧ b = sizeAt qq := by
  intro n
  induction n with
  | zero =>
    intro q hq disk hinv qq b f heq
    have hge : ¬ qmin ≤ q := by omega
    rcases hinv with h | h
    · exact absurd h hge
    · subst h
      rw [saveLoop_low sizeAt maxB qmin qstep hstep q _ hge] at heq
      simp [statSize] at heq
      obtain ⟨⟨rfl, rfl⟩, rfl⟩ := heq
      exact ⟨rfl, rfl⟩
  | succ n ih =>
    intro q hq disk hinv qq b f heq
    by_cases hge : qmin ≤ q
    · by_cases hs : sizeAt q ≤ maxB
      · rw [saveLoop_fit sizeAt maxB qmin qstep hstep q disk hge hs] at heq
        simp at heq
        obtain ⟨⟨rfl, rfl⟩, rfl⟩ := heq
        exact ⟨rfl, rfl⟩
      · rw [saveLoop_step sizeAt maxB qmin qstep hstep q disk hge hs] at heq
        exact ih (q - qstep) (by omega) (some (DiskFile.enc q))
          (Or.inr (by rw [show q - qstep + qstep = q from by omega])) qq b f heq
    · rcases hinv with h | h
      · exact absurd h hge
      · subst h
        rw [saveLoop_low sizeAt maxB qmin qstep hstep q _ hge] at heq
        simp [statSize] at heq
        obtain ⟨⟨rfl, rfl⟩, rfl⟩ := heq
        exact ⟨rfl, rfl⟩

/-- C1 counterexample: with the spec's defaults (maxKb 200, start 88,
floor 35, step 3) and an image whose encode never fits the budget
(constant 300000 bytes at every quality), `save_jpeg_under_limit`
returns quality 37, not the configured floor 35: the descending scan
88, 85, … never reaches 35 because 88 − 35 is not a multiple of 3. -/
theorem save_exhausted_defaults_returns_37 :
    save_jpeg_under_limit (fun _ => 300000) none 200 88 35 3 (by norm_num) =
      some ((37, 300000), DiskFile.enc 37) ∧ (37 : Int) ≠ 35 := by
  constructor
  · norm_num [save_jpeg_under_limit, saveLoop_fit, saveLoop_step, saveLoop_low, statSize]
  · decide

/-- C1 (amended): when no scanned quality fits the budget, the encoder
returns the last quality it actually encoded — the unique scan member
`qL` with `qL - qstep < qmin ≤ qL` — together with the size of that
persisted encode.  This equals the floor `qmin` only when `qstep`
divides `qstart - qmin`; with the defaults it is 37. -/
theorem save_exhausted_returns_last_scanned (sizeAt : Int → Nat)
    (disk0 : Option DiskFile) (max_kb : Nat) (qs qmin qstep : Int)
    (hstep : 0 < qstep) (qL : Int)
    (hmem : qL ∈ qualityScan qmin qstep hstep qs)
    (hlow : qL - qstep < qmin)
    (hnofit : ∀ q' ∈ qualityScan qmin qstep hstep qs, ¬ sizeAt q' ≤ max_kb * 1024) :
    save_jpeg_under_limit sizeAt disk0 max_kb qs qmin qstep hstep =
      some ((qL, sizeAt qL), DiskFile.enc qL) :=
  saveLoop_exhaust sizeAt (max_kb * 1024) qmin qstep hstep
    ((qs + qstep - qmin).toNat) qs (le_refl _) qL hmem hlow hnofit disk0

/-- C1 amended-claim witness at the defaults. -/
theorem save_exhausted_returns_last_scanned_witness :
    save_jpeg_under_limit (fun _ => 300000) (some (DiskFile.pre 5)) 200 88 35 3
      (by norm_num) = some ((37, 300000), DiskFile.enc 37) :=
  save_exhausted_returns_last_scanned (fun _ => 300000) (some (DiskFile.pre 5))
    200 88 35 3 (by norm_num) 37
    (by norm_num [qualityScan_cons, qualityScan_nil])
    (by norm_num)
    (fun q' _ => by norm_num)

/-- C4: whenever some scanned quality fits the byte budget, the encoder
stops at the first (highest) such quality `qF` and returns it with its
measured size, which is within the budget.  (`qF` being first/highest is
expressed by: it is scanned, it fits, and every scanned quality above it
does not fit.) -/
theorem save_returns_first_fitting_quality (sizeAt : Int → Nat)
    (disk0 : Option DiskFile) (max_kb : Nat) (qs qmin qstep : Int)
    (hstep : 0 < qstep) (qF : Int)
    (hmem : qF ∈ qualityScan qmin qstep hstep qs)
    (hfit : sizeAt qF ≤ max_kb * 1024)
    (hhigh : ∀ q' ∈ qualityScan qmin qstep hstep qs, qF < q' →
      ¬ sizeAt q' ≤ max_kb * 1024) :
    save_jpeg_under_limit sizeAt disk0 max_kb qs qmin qstep hstep =
      some ((qF, sizeAt qF), DiskFile.enc qF) ∧
    sizeAt qF ≤ max_kb * 1024 :=
  ⟨saveLoop_first_fit sizeAt (max_kb * 1024) qmin qstep hstep
      ((qs + qstep - qmin).toNat) qs (le_refl _) qF hmem hfit hhigh disk0,
    hfit⟩

/-- C4 witness: an encode of 1000 bytes at every quality fits the 200 KB
budget at the very first trial, quality 88. -/
theorem save_returns_first_fitting_quality_witness :
    save_jpeg_under_limit (fun _ => 1000) none 200 88 35 3 (by norm_num) =
      some ((88, 1000), DiskFile.enc 88) ∧ (1000 : Nat) ≤ 200 * 1024 :=
  save_returns_first_fitting_quality (fun _ => 1000) none 200 88 35 3
    (by norm_num) 88
    (by rw [qualityScan_cons 35 3 (by norm_num) 88 (by norm_num)]
        exact List.mem_cons_self 88 _)
    (by norm_num)
    (fun q' hq' hgt => by
      have h2 := qualityScan_mem_le 35 3 (by norm_num) 88 q' hq'
      omega)

/-- C3: for a budget whose start is at least its floor (the spec's
`EncodingBudget` requires `qualityStart > qualityMin`), every result
`save_jpeg_under_limit` returns describes exactly the file it leaves at
the destination: the file is the encode produced at the returned
quality and the returned byte size is that file's size on disk — never
a discarded or higher-quality trial. -/
theorem save_result_matches_disk (sizeAt : Int → Nat) (disk0 : Option DiskFile)
    (max_kb : Nat) (qs qmin qstep : Int) (hstep : 0 < qstep)
    (hstart : qmin ≤ qs) (qq : Int) (b : Nat) (f : DiskFile)
    (heq : save_jpeg_under_limit sizeAt disk0 max_kb qs qmin qstep hstep =
      some ((qq, b), f)) :
    f = DiskFile.enc qq ∧ b = statSize sizeAt f := by
  have h2 := saveLoop_inv sizeAt (max_kb * 1024) qmin qstep hstep
    ((qs + qstep - qmin).toNat) qs (le_refl _) disk0 (Or.inl hstart) qq b f heq
  refine ⟨h2.1, ?_⟩
  rw [h2.1]
  simpa [statSize] using h2.2

/-- C3 witness at a concrete run that succeeds at the first trial. -/
theorem save_result_matches_disk_witness :
    DiskFile.enc 88 = DiskFile.enc 88 ∧
    (1000 : Nat) = statSize (fun _ => 1000) (DiskFile.enc 88) :=
  save_result_matches_disk (fun _ => 1000) (some (DiskFile.pre 77)) 200 88 35 3
    (by norm_num) (by norm_num) 88 1000 (DiskFile.enc 88)
    (by norm_num [save_jpeg_under_limit, saveLoop_fit])

/-- C10 counterexample: calling with `quality_start = 30` strictly below
`quality_min = 35` while a 100-byte file pre-exists at the destination
returns quality 33 = quality_start + quality_step, not quality_start 30
as the claim states. -/
theorem save_start_below_min_returns_shifted_quality :
    save_jpeg_under_limit (fun _ => 0) (some (DiskFile.pre 100)) 200 30 35 3
      (by norm_num) = some ((33, 100), DiskFile.pre 100) ∧ (33 : Int) ≠ 30 := by
  constructor
  · norm_num [save_jpeg_under_limit, saveLoop_low, statSize]
  · decide

/-- C10 (amended): when `quality_start < quality_min` the encode loop
body never executes and nothing is written: with no file at the
destination the final `stat` raises (result `none`), and with a
pre-existing file `f` the call returns `(quality_start + quality_step,
size of f)` describing a file it never wrote, leaving `f` untouched. -/
theorem save_start_below_min_behavior (sizeAt : Int → Nat) (max_kb : Nat)
    (qs qmin qstep : Int) (hstep : 0 < qstep) (h : qs < qmin) :
    save_jpeg_under_limit sizeAt none max_kb qs qmin qstep hstep = none ∧
    ∀ f, save_jpeg_under_limit sizeAt (some f) max_kb qs qmin qstep hstep =
      some ((qs + qstep, statSize sizeAt f), f) := by
  constructor
  · rw [save_jpeg_under_limit,
      saveLoop_low sizeAt (max_kb * 1024) qmin qstep hstep qs none (by omega)]
  · intro f
    rw [save_jpeg_under_limit,
      saveLoop_low sizeAt (max_kb * 1024) qmin qstep hstep qs (some f) (by omega)]

/-- C10 amended-claim witness. -/
theorem save_start_below_min_behavior_witness :
    save_jpeg_under_limit (fun _ => 0) none 200 30 35 3 (by norm_num) = none ∧
    save_jpeg_under_limit (fun _ => 0) (some (DiskFile.pre 100)) 200 30 35 3
      (by norm_num) =
      some ((30 + 3, statSize (fun _ => 0) (DiskFile.pre 100)), DiskFile.pre 100) :=
  ⟨(save_start_below_min_behavior (fun _ => 0) 200 30 35 3 (by norm_num)
      (by norm_num)).1,
    (save_start_below_min_behavior (fun _ => 0) 200 30 35 3 (by norm_num)
      (by norm_num)).2 (DiskFile.pre 100)⟩

/-- C2: for every source image with positive dimensions and a positive
target, `resize_to_fit` produces an image whose dimensions are exactly
the target `(width, height)` in each of the three modes. -/
theorem resize_to_fit_dims_exact_frame (img : PILImage) (tw th : Int)
    (mode : String) (h1 : 0 < img.width) (h2 : 0 < img.height)
    (h3 : 0 < tw) (h4 : 0 < th)
    (hmode : mode = "cover" ∨ mode = "contain" ∨ mode = "exact") :
    ∃ out, (resize_to_fit img (tw, th) mode).1 = Except.ok out ∧
      out.width = tw ∧ out.height = th := by
  rcases hmode with rfl | rfl | rfl <;>
    refine ⟨PILImage.mk tw th (convertRGB (exif_transpose img)).exifSwapped
      ((convertRGB (exif_transpose img)).rgb), ?_, rfl, rfl⟩ <;>
    simp [resize_to_fit]

/-- C2 witness at an 800×600 source, 640×480 target, mode cover. -/
theorem resize_to_fit_dims_exact_frame_witness :
    ∃ out, (resize_to_fit ⟨800, 600, false, false⟩ (640, 480) ("cover")).1 =
      Except.ok out ∧ out.width = 640 ∧ out.height = 480 :=
  resize_to_fit_dims_exact_frame ⟨800, 600, false, false⟩ 640 480 ("cover")
    (by norm_num) (by norm_num) (by norm_num) (by norm_num) (Or.inl rfl)

/-- C5: in mode `contain` the code computes exactly the resized content
size and centering offsets the spec states — `specContainSize` and
`specContainOffset` are transcribed from the spec's formulas — resamples
to that size, and pastes at that offset onto a solid-black canvas of
exactly the target dimensions. -/
theorem resize_contain_geometry (img : PILImage) (tw th : Int)
    (h1 : 0 < img.width) (h2 : 0 < img.height) (h3 : 0 < tw) (h4 : 0 < th)
    (hsw : img.exifSwapped = false) :
    resize_to_fit img (tw, th) ("contain") =
      (Except.ok (PILImage.mk tw th false true),
        [PixelOp.transposeOp, PixelOp.convertOp,
          PixelOp.resampleOp (specContainSize img.width img.height tw th).1
            ((specContainSize img.width img.height tw th).2),
          PixelOp.newCanvasOp tw th (0, 0, 0),
          PixelOp.pasteOp
            (specContainOffset tw th (specContainSize img.width img.height tw th)).1
            ((specContainOffset tw th (specContainSize img.width img.height tw th)).2)]) := by
  have himg : convertRGB (exif_transpose img) =
      PILImage.mk img.width img.height false true := by
    simp [convertRGB, exif_transpose, hsw]
  simp only [resize_to_fit, himg, specContainSize, specContainOffset]
  by_cases hr : (img.width : ℚ) / (img.height : ℚ) > (tw : ℚ) / (th : ℚ) <;>
    simp [hr]

/-- C5 witness: a 1000×500 source into a 640×480 target under contain —
srcRatio 2 exceeds tgtRatio 4/3, content is resampled to 640×320 and
pasted at offset (0, 80): 80-pixel black bars top and bottom. -/
theorem resize_contain_geometry_witness :
    resize_to_fit ⟨1000, 500, false, false⟩ (640, 480) ("contain") =
      (Except.ok (PILImage.mk 640 480 false true),
        [PixelOp.transposeOp, PixelOp.convertOp,
          PixelOp.resampleOp 640 320,
          PixelOp.newCanvasOp 640 480 (0, 0, 0),
          PixelOp.pasteOp 0 80]) := by
  have h := resize_contain_geometry ⟨1000, 500, false, false⟩ 640 480
    (by norm_num) (by norm_num) (by norm_num) (by norm_num) rfl
  rw [h]
  norm_num [specContainSize, specContainOffset, pyround, Int.fdiv]

/-- C6 counterexample: for the unrecognized mode string `stretch` the
fitter does raise the invalid-mode error, but only after performing the
EXIF orientation transpose and the RGB colour-space conversion: its
pixel-operation trace at the error is `[transposeOp, convertOp]`, not
empty as the claim requires. -/
theorem resize_unknown_mode_performs_pixel_work :
    resize_to_fit ⟨800, 600, false, false⟩ (640, 480) ("stretch") =
      (Except.error ("Unknown resize mode: stretch"),
        [PixelOp.transposeOp, PixelOp.convertOp]) ∧
    [PixelOp.transposeOp, PixelOp.convertOp] ≠ ([] : List PixelOp) := by
  constructor
  · rfl
  · decide

/-- C6 (amended): for every mode outside {cover, contain, exact} the
fitter fails with the invalid-mode error before any resampling, canvas,
paste or crop work — but after the orientation transpose and RGB
conversion, which the source performs unconditionally first. -/
theorem resize_unknown_mode_errors_after_normalize (img : PILImage)
    (size : Int × Int) (mode : String) (hc : mode ≠ "cover")
    (hn : mode ≠ "contain") (he : mode ≠ "exact") :
    resize_to_fit img size mode =
      (Except.error ("Unknown resize mode: " ++ mode),
        [PixelOp.transposeOp, PixelOp.convertOp]) := by
  simp [resize_to_fit, he, hn, hc]

/-- C6 amended-claim witness. -/
theorem resize_unknown_mode_errors_after_normalize_witness :
    resize_to_fit ⟨1000, 500, true, false⟩ (640, 480) ("letterbox") =
      (Except.error ("Unknown resize mode: letterbox"),
        [PixelOp.transposeOp, PixelOp.convertOp]) :=
  resize_unknown_mode_errors_after_normalize ⟨1000, 500, true, false⟩ (640, 480)
    ("letterbox") (by decide) (by decide) (by decide)

/-- C7: `parse_size` accepts non-positive dimensions.  The size `0x480`
parses successfully to `(0, 480)` and `-640x480` to `(-640, 480)` —
there is no positivity validation in src/dstar_image_prep.py's
`parse_size`, so such sizes reach the image-processing pipeline, contrary
to the spec's requirement that they fail before any image I/O. -/
theorem parse_size_accepts_nonpositive :
    parse_size ("0x480") = Except.ok (0, 480) ∧
    parse_size ("-640x480") = Except.ok (-640, 480) := by
  constructor
  · rfl
  · rfl

/-- Helper: Python `str.split` always yields at least one piece. -/
theorem splitOnChar_ne_nil (c : Char) (l : List Char) :
    splitOnChar c l ≠ [] := by
  cases l with
  | nil => simp [splitOnChar]
  | cons x xs =>
    simp only [splitOnChar]
    split
    · simp
    · split <;> simp

/-- Helper: the draw loop emits commands for every line. -/
theorem drawCmds_ne_nil (x y : Int) (l : List (String × FontStyle × Int))
    (h : l ≠ []) : drawCmds x y l ≠ [] := by
  cases l with
  | nil => exact absurd rfl h
  | cons p rest =>
    obtain ⟨t, f, hh⟩ := p
    simp [drawCmds]

/-- C8: with both the identity text and the caption text empty,
`add_watermark` returns its input image object itself — no copy is made
and nothing is drawn or mutated. -/
theorem add_watermark_noop_when_empty (measure : String → FontStyle → Int × Int)
    (img : WImage) (margin : Int) :
    add_watermark measure img ("") ("") margin = (img, []) := by
  simp [add_watermark]

/-- C9: with at least one of the two texts non-empty, `add_watermark`
draws the overlay onto a fresh copy of its input (a new object id) and
returns that copy; the only mutated object is the copy, never the
caller's image. -/
theorem add_watermark_draws_on_fresh_copy (measure : String → FontStyle → Int × Int)
    (img : WImage) (identity_text caption_text : String) (margin : Int)
    (h : identity_text ≠ "" ∨ caption_text ≠ "") :
    (add_watermark measure img identity_text caption_text margin).1.oid = img.oid + 1 ∧
    (add_watermark measure img identity_text caption_text margin).2 = [img.oid + 1] ∧
    img.oid ∉ (add_watermark measure img identity_text caption_text margin).2 ∧
    ∃ cmds, cmds ≠ [] ∧
      (add_watermark measure img identity_text caption_text margin).1.drawn =
        img.drawn ++ cmds := by
  have hcond : ¬ (identity_text = "" ∧ caption_text = "") := by
    rcases h with h1 | h1
    · exact fun hc => h1 hc.1
    · exact fun hc => h1 hc.2
  simp only [add_watermark, if_neg hcond]
  refine ⟨trivial, trivial, ?_, ?_⟩
  · simp
  · refine ⟨_, ?_, rfl⟩
    apply drawCmds_ne_nil
    intro hmap
    rw [List.map_eq_nil_iff, List.append_eq_nil] at hmap
    obtain ⟨hid, hcap⟩ := hmap
    rcases h with h1 | h1
    · rw [if_neg h1, List.map_eq_nil_iff] at hid
      exact splitOnChar_ne_nil ('|') identity_text.data hid
    · rw [if_neg h1] at hcap
      simp at hcap

/-- C9 witness at a concrete two-line identity overlay. -/
theorem add_watermark_draws_on_fresh_copy_witness :
    (add_watermark (fun _ _ => (50, 20)) ⟨7, 640, 480, []⟩ ("K0PRA|Parker") ("")
      14).1.oid = 7 + 1 ∧
    (add_watermark (fun _ _ => (50, 20)) ⟨7, 640, 480, []⟩ ("K0PRA|Parker") ("")
      14).2 = [7 + 1] ∧
    7 ∉ (add_watermark (fun _ _ => (50, 20)) ⟨7, 640, 480, []⟩ ("K0PRA|Parker")
      ("") 14).2 ∧
    ∃ cmds, cmds ≠ [] ∧
      (add_watermark (fun _ _ => (50, 20)) ⟨7, 640, 480, []⟩ ("K0PRA|Parker")
        ("") 14).1.drawn = [] ++ cmds :=
  add_watermark_draws_on_fresh_copy (fun _ _ => (50, 20)) ⟨7, 640, 480, []⟩
    ("K0PRA|Parker") ("") 14 (Or.inl (by decide))
